import Mathlib

/-!
Shallow embedding of the `apple_silicon` information-extraction pipeline
(`src/soc.rs`, `src/error.rs`): the CPU-path and GPU-path field parsers, the
chip classifier, the specs resolver, and the SoC-info aggregator.

Strings are modelled by Lean `String` (a wrapper around `List Char`); the
Rust iterator/splitting primitives used by the source are re-implemented
below with the exact semantics of their Rust counterparts:
  * `splitOnNl`       models `str::split('\n')` (always at least one piece),
  * `rustLines`       models `str::lines()` via `split_inclusive('\n')`: a
                      `'\r'` is stripped only when it immediately precedes
                      the `'\n'` terminator, so a bare trailing `'\r'` on a
                      final unterminated line is kept,
  * `trimStart`       models `str::trim_start()` (removal of the full
                      Unicode White_Space prefix, via `isRustWhitespace`),
  * `isPrefixChars`   models `str::starts_with(..)`,
  * `isInfixChars`    models `str::contains(..)` (substring containment),
  * `splitColonSpace` models `str::split(": ")` (the separator is the
                      literal used at src/soc.rs:209),
  * `parseU16`        models `str::parse::<u16>()` (optional leading `'+'`,
                      one or more ASCII digits, value at most 65535).
-/

/-- Models Rust `str::split('\n')`: splits a character list at every newline,
producing one (possibly empty) piece more than the number of newlines. -/
def splitOnNl : List Char → List (List Char)
  | [] => [[]]
  | c :: cs =>
    if c = '\n' then [] :: splitOnNl cs
    else
      match splitOnNl cs with
      | [] => [[c]]
      | h :: t => (c :: h) :: t

/-- Models Rust `str::starts_with` on character lists. -/
def isPrefixChars : List Char → List Char → Bool
  | [], _ => true
  | _ :: _, [] => false
  | a :: as, b :: bs => a = b && isPrefixChars as bs

/-- Models Rust `str::contains` (substring containment) on character lists. -/
def isInfixChars (pat : List Char) : List Char → Bool
  | [] => isPrefixChars pat []
  | c :: cs => isPrefixChars pat (c :: cs) || isInfixChars pat cs

/-- Rust `str::contains` lifted to `String`. -/
def strContains (s pat : String) : Bool :=
  isInfixChars pat.data s.data

/-- The Unicode White_Space property, the character class stripped by Rust
`char::is_whitespace` (and hence by `str::trim_start`): U+0009..U+000D,
U+0020, U+0085, U+00A0, U+1680, U+2000..U+200A, U+2028, U+2029, U+202F,
U+205F and U+3000. -/
def isRustWhitespace (c : Char) : Bool :=
  (0x09 ≤ c.toNat && c.toNat ≤ 0x0D) || c.toNat = 0x20 ||
  c.toNat = 0x85 || c.toNat = 0xA0 || c.toNat = 0x1680 ||
  (0x2000 ≤ c.toNat && c.toNat ≤ 0x200A) ||
  c.toNat = 0x2028 || c.toNat = 0x2029 || c.toNat = 0x202F ||
  c.toNat = 0x205F || c.toNat = 0x3000

/-- Models Rust `str::trim_start()`: drop the leading Unicode-White_Space
characters. -/
def trimStart (l : List Char) : List Char :=
  l.dropWhile isRustWhitespace

/-- Models Rust `str::split_inclusive('\n')`: each piece keeps its `'\n'`
terminator, the final piece may be unterminated, and the empty string
yields no pieces at all. -/
def splitInclusiveNl : List Char → List (List Char)
  | [] => []
  | c :: cs =>
    if c = '\n' then ['\n'] :: splitInclusiveNl cs
    else
      match splitInclusiveNl cs with
      | [] => [[c]]
      | h :: t => (c :: h) :: t

/-- The per-piece map of Rust `str::lines()`: strip the `'\n'` terminator if
present, and then one `'\r'` directly before it; a piece not ending in
`'\n'` (the final unterminated line) is returned unchanged, keeping a bare
trailing `'\r'`. -/
def linesMap (l : List Char) : List Char :=
  if l.getLast? = some '\n' then
    let s := l.dropLast
    if s.getLast? = some '\r' then s.dropLast else s
  else l

/-- Models Rust `str::lines()`: `split_inclusive('\n')` followed by
stripping each piece's line terminator (`"\n"` or `"\r\n"`). -/
def rustLines (s : List Char) : List (List Char) :=
  (splitInclusiveNl s).map linesMap

/-- Models Rust `str::split(": ")` for the literal separator `": "` used at
src/soc.rs:209: non-overlapping, left-to-right, always at least one piece. -/
def splitColonSpace : List Char → List (List Char)
  | [] => [[]]
  | ':' :: ' ' :: rest => [] :: splitColonSpace rest
  | c :: rest =>
    match splitColonSpace rest with
    | [] => [[c]]
    | h :: t => (c :: h) :: t

/-- Models Rust `str::parse::<u16>()`: an optional leading `'+'`, then one or
more ASCII digits, and the value must fit in `u16` (at most 65535); anything
else (empty, sign only, non-digit, overflow) is a parse failure. -/
def parseU16 (cs : List Char) : Option Nat :=
  let ds := if cs.head? = some '+' then cs.tail else cs
  if ds = [] then none
  else if ds.all Char.isDigit then
    let v := ds.foldl (fun acc c => acc * 10 + (c.toNat - 48)) 0
    if v ≤ 65535 then some v else none
  else none

/-- The error kinds of `src/error.rs` that the parsing layer can produce.
`Parse` carries the offending raw buffer (src/error.rs:4); `ParseInt` is the
integer-parse kind (src/error.rs:19). The `Io` and `Utf8Conversion` kinds
arise only at the executor/decoding boundary, which is outside the
parsing functions modelled here. -/
inductive Error where
  | Parse (raw : String)
  | ParseInt
  deriving DecidableEq, Repr

/-- The chip identities of `enum AppleChip` (src/soc.rs:33). -/
inductive AppleChip where
  | M1 | M1Pro | M1Max | M1Ultra
  | M2 | M2Pro | M2Max | M2Ultra
  | M3 | M3Pro | M3Max
  | Unknown
  deriving DecidableEq, Repr

/-- The specs record `struct ChipSpecs` (src/soc.rs:48). -/
structure ChipSpecs where
  cpu_tdp : Nat
  gpu_tdp : Nat
  cpu_bw : Nat
  gpu_bw : Nat
  deriving DecidableEq, Repr

namespace AppleChip

/-- `AppleChip::from_brand_string` (src/soc.rs:56): ordered substring
containment tests against the brand string, `Unknown` fallback. -/
def from_brand_string (brand : String) : AppleChip :=
  if strContains brand "M1 Pro" then .M1Pro
  else if strContains brand "M1 Max" then .M1Max
  else if strContains brand "M1 Ultra" then .M1Ultra
  else if strContains brand "M1" then .M1
  else if strContains brand "M2 Pro" then .M2Pro
  else if strContains brand "M2 Max" then .M2Max
  else if strContains brand "M2 Ultra" then .M2Ultra
  else if strContains brand "M2" then .M2
  else if strContains brand "M3 Pro" then .M3Pro
  else if strContains brand "M3 Max" then .M3Max
  else if strContains brand "M3" then .M3
  else .Unknown

/-- `AppleChip::get_specs` (src/soc.rs:73): static total lookup; the wildcard
arm (covering `M2Ultra`, `M3`, `M3Pro`, `M3Max` and `Unknown`) is all-zero. -/
def get_specs : AppleChip → ChipSpecs
  | .M1 => ⟨20, 20, 70, 70⟩
  | .M1Pro => ⟨30, 30, 200, 200⟩
  | .M1Max => ⟨30, 60, 250, 400⟩
  | .M1Ultra => ⟨60, 120, 500, 800⟩
  | .M2 => ⟨25, 15, 100, 100⟩
  | .M2Pro => ⟨30, 35, 0, 0⟩
  | .M2Max => ⟨30, 40, 0, 0⟩
  | _ => ⟨0, 0, 0, 0⟩

end AppleChip

/-- The positional consumption of the four expected lines in `cpu_info`
(src/soc.rs:167-193), abstracted over the already-split line list: each
`iter.next()` is the next position of the split; a missing position fails
with `Error::Parse buffer`, a present-but-non-numeric line fails with the
integer-parse kind. -/
def cpuParse (buffer : String) (parts : List (List Char)) :
    Except Error (String × Nat × Nat × Nat) :=
  match parts.get? 0 with
  | none => .error (.Parse buffer)
  | some brand =>
    match parts.get? 1 with
    | none => .error (.Parse buffer)
    | some l1 =>
      match parseU16 l1 with
      | none => .error .ParseInt
      | some num_cpu_cores =>
        match parts.get? 2 with
        | none => .error (.Parse buffer)
        | some l2 =>
          match parseU16 l2 with
          | none => .error .ParseInt
          | some num_performance_cores =>
            match parts.get? 3 with
            | none => .error (.Parse buffer)
            | some l3 =>
              match parseU16 l3 with
              | none => .error .ParseInt
              | some num_efficiency_cores =>
                .ok (String.mk brand, num_cpu_cores,
                     num_performance_cores, num_efficiency_cores)

/-- `cpu_info` (src/soc.rs:153) from the decoded stdout buffer onward:
`buffer.split('\n')` followed by the positional line consumption. -/
def cpu_info (buffer : String) : Except Error (String × Nat × Nat × Nat) :=
  cpuParse buffer (splitOnNl buffer.data)

/-- The line predicate of `gpu_info` (src/soc.rs:206):
`line.trim_start().starts_with("Total Number of Cores")`. -/
def gpuLinePred (line : List Char) : Bool :=
  isPrefixChars ("Total Number of Cores".data) (trimStart line)

/-- `gpu_info` (src/soc.rs:197) from the decoded stdout buffer onward: find
the first matching line, split it on `": "`, take the last segment, parse it
as an unsigned 16-bit integer. -/
def gpu_info (buffer : String) : Except Error Nat :=
  match (rustLines buffer.data).find? gpuLinePred with
  | none => .error (.Parse buffer)
  | some line =>
    match (splitColonSpace line).getLast? with
    | none => .error (.Parse buffer)
    | some seg =>
      match parseU16 seg with
      | none => .error .ParseInt
      | some n => .ok n

/-- The result record `struct SocInfo` (src/soc.rs:11). -/
structure SocInfo where
  cpu_brand_name : String
  num_cpu_cores : Nat
  num_gpu_cores : Nat
  cpu_max_power : Option Nat
  gpu_max_power : Option Nat
  cpu_max_bw : Option Nat
  gpu_max_bw : Option Nat
  e_core_count : Nat
  p_core_count : Nat
  deriving DecidableEq, Repr

/-- `SocInfo::new` (src/soc.rs:129), abstracted over the two command outputs
(the executor boundary): run the CPU parser, then the GPU parser, classify
the brand, resolve specs, assemble the record.  The source destructures the
`cpu_info` tuple as `(cpu_brand_name, num_cpu_cores, e_core_count,
p_core_count)`, so the third component (performance cores) lands in
`e_core_count` and the fourth (efficiency cores) in `p_core_count`; this is
reproduced verbatim. -/
def SocInfo.new (cpuBuf gpuBuf : String) : Except Error SocInfo :=
  match cpu_info cpuBuf with
  | .error e => .error e
  | .ok (cpu_brand_name, num_cpu_cores, e_core_count, p_core_count) =>
    match gpu_info gpuBuf with
    | .error e => .error e
    | .ok num_gpu_cores =>
      let chip := AppleChip.from_brand_string cpu_brand_name
      let specs := chip.get_specs
      .ok { cpu_brand_name := cpu_brand_name
            num_cpu_cores := num_cpu_cores
            num_gpu_cores := num_gpu_cores
            cpu_max_power := some specs.cpu_tdp
            gpu_max_power := some specs.gpu_tdp
            cpu_max_bw := some specs.cpu_bw
            gpu_max_bw := some specs.gpu_bw
            e_core_count := e_core_count
            p_core_count := p_core_count }

/-- The concrete record that `SocInfo.new` produces for the buffers
"Zen\n8\n4\n4\n" and "Total Number of Cores: 10". -/
def zenInfo : SocInfo where
  cpu_brand_name := "Zen"
  num_cpu_cores := 8
  num_gpu_cores := 10
  cpu_max_power := some 0
  gpu_max_power := some 0
  cpu_max_bw := some 0
  gpu_max_bw := some 0
  e_core_count := 4
  p_core_count := 4

/-! ### Helper lemmas about the splitting and parsing primitives -/

theorem splitOnNl_ne_nil (l : List Char) : splitOnNl l ≠ [] := by
  cases l with
  | nil => simp [splitOnNl]
  | cons c cs =>
    simp only [splitOnNl]
    split
    · simp
    · split <;> simp

theorem splitOnNl_append (x rest : List Char) (hx : '\n' ∉ x) :
    splitOnNl (x ++ '\n' :: rest) = x :: splitOnNl rest := by
  induction x with
  | nil => simp [splitOnNl]
  | cons c cs ih =>
    have hc : c ≠ '\n' := fun h => hx (h ▸ List.mem_cons_self c cs)
    have hcs : '\n' ∉ cs := fun h => hx (List.mem_cons_of_mem c h)
    simp only [List.cons_append, splitOnNl, if_neg hc, List.append_eq, ih hcs]

theorem parseU16_all_digits (cs : List Char) (n : Nat) (h : parseU16 cs = some n) :
    (if cs.head? = some '+' then cs.tail else cs).all Char.isDigit = true := by
  unfold parseU16 at h
  set ds := if cs.head? = some '+' then cs.tail else cs with hds
  by_cases h1 : ds = []
  · simp only [if_pos h1] at h; exact absurd h (by simp)
  · simp only [if_neg h1] at h
    by_cases h2 : ds.all Char.isDigit
    · exact h2
    · simp only [if_neg h2] at h; exact absurd h (by simp)

theorem parseU16_no_newline (cs : List Char) (n : Nat)
    (h : parseU16 cs = some n) : '\n' ∉ cs := by
  intro hmem
  have hall := parseU16_all_digits cs n h
  by_cases hplus : cs.head? = some '+'
  · rw [if_pos hplus] at hall
    obtain ⟨tl, rfl⟩ : ∃ tl, cs = '+' :: tl := by
      cases cs with
      | nil => simp at hplus
      | cons a as => exact ⟨as, by simp_all⟩
    have hmem' : '\n' ∈ tl := by
      rcases List.mem_cons.mp hmem with h' | h'
      · exact absurd h' (by decide)
      · exact h'
    have := List.all_eq_true.mp hall '\n' (by simpa using hmem')
    exact absurd this (by decide)
  · rw [if_neg hplus] at hall
    have := List.all_eq_true.mp hall '\n' hmem
    exact absurd this (by decide)

theorem splitColonSpace_ne_nil (l : List Char) : splitColonSpace l ≠ [] := by
  rw [splitColonSpace.eq_def]
  split
  · simp
  · simp
  · split <;> simp

theorem headD_of_get?_zero (l : List (List Char)) (a : List Char)
    (h : l.get? 0 = some a) : l.headD [] = a := by
  cases l <;> simp_all

theorem find?_append_first (p : List Char → Bool) (pre post : List (List Char))
    (l : List Char) (hpre : ∀ x ∈ pre, p x = false) (hl : p l = true) :
    (pre ++ l :: post).find? p = some l := by
  induction pre with
  | nil => simp [List.find?, hl]
  | cons a as ih =>
    have ha : p a = false := hpre a (List.mem_cons_self a as)
    simp only [List.cons_append, List.find?, ha]
    exact ih fun x hx => hpre x (List.mem_cons_of_mem a hx)

/-- C1 (counterexample): CPU-path parsing of a buffer whose first line is
empty can succeed, returning the empty string as the brand name — so
"brand name is non-empty whenever parsing succeeds" is false, and an
empty-first-line input is not necessarily a parse failure. -/
theorem cpu_info_empty_first_line_succeeds :
    cpu_info "\n8\n4\n4\n" = .ok ("", 8, 4, 4) := rfl

/-- C1 (amended): on every successful CPU-path parse the returned brand name
is the first newline-separated piece of the buffer taken verbatim — it is
empty exactly when the buffer's first line is empty, and an empty first line
with numeric remaining lines is a success, not a failure. -/
theorem cpu_info_brand_verbatim (buffer brand : String) (r : Nat × Nat × Nat)
    (h : cpu_info buffer = .ok (brand, r)) :
    brand = String.mk ((splitOnNl buffer.data).headD []) := by
  cases hsp : splitOnNl buffer.data with
  | nil => exact absurd hsp (splitOnNl_ne_nil _)
  | cons p0 ps =>
    unfold cpu_info at h
    rw [hsp] at h
    unfold cpuParse at h
    repeat' split at h
    all_goals simp_all

/-- C1 (witness for the amended theorem): the concrete empty-first-line
buffer evaluates as the amended theorem states. -/
theorem cpu_info_brand_verbatim_witness :
    ("" : String) = String.mk ((splitOnNl ("\n8\n4\n4\n" : String).data).headD []) :=
  cpu_info_brand_verbatim "\n8\n4\n4\n" "" (8, 4, 4) rfl

/-- C3: CPU-path parsing of the exact buffer "Apple M2\n" (subsequent count
lines missing) fails with the integer-parse error kind: the split yields a
trailing empty piece, which is present but non-numeric. -/
theorem cpu_info_m2_only_fails_parse_int :
    cpu_info "Apple M2\n" = .error .ParseInt := rfl

/-- C4: a brand string containing "M1 Pro" classifies as `M1Pro` and never as
the plain `M1` identity (the specific-before-general ordering tie-break), and
a brand string containing none of the known labels (case-sensitive substring
matching, no normalization) classifies as `Unknown`. -/
theorem from_brand_string_ordering_and_unknown (b : String) :
    (strContains b "M1 Pro" = true →
      AppleChip.from_brand_string b = .M1Pro ∧
      AppleChip.from_brand_string b ≠ .M1)
  ∧ ((∀ p ∈ ["M1 Pro", "M1 Max", "M1 Ultra", "M1", "M2 Pro", "M2 Max",
        "M2 Ultra", "M2", "M3 Pro", "M3 Max", "M3"],
        strContains b p = false) →
      AppleChip.from_brand_string b = .Unknown) := by
  constructor
  · intro h
    refine ⟨?_, ?_⟩ <;> simp [AppleChip.from_brand_string, h]
  · intro h
    simp only [List.mem_cons, List.not_mem_nil, or_false, forall_eq_or_imp,
      forall_eq] at h
    obtain ⟨h1, h2, h3, h4, h5, h6, h7, h8, h9, h10, h11⟩ := h
    simp [AppleChip.from_brand_string, h1, h2, h3, h4, h5, h6, h7, h8, h9,
      h10, h11]

/-- C4 (witness): the classifier at the concrete brand strings
"Apple M1 Pro" (contains "M1 Pro") and "Intel Core" (contains no known
label). -/
theorem from_brand_string_ordering_and_unknown_witness :
    (AppleChip.from_brand_string "Apple M1 Pro" = .M1Pro ∧
     AppleChip.from_brand_string "Apple M1 Pro" ≠ .M1) ∧
    AppleChip.from_brand_string "Intel Core" = .Unknown :=
  ⟨(from_brand_string_ordering_and_unknown "Apple M1 Pro").1 (by decide),
   (from_brand_string_ordering_and_unknown "Intel Core").2 (by decide)⟩

/-- C5: the specs resolver is total by construction and resolves `Unknown`
and every recognized-but-unmodeled identity (`M2Ultra`, `M3`, `M3Pro`,
`M3Max`) to the all-zero record, while every modeled identity resolves to
its fixed published record (in particular `M1` to {20, 20, 70, 70}). -/
theorem get_specs_table :
    AppleChip.get_specs .Unknown = ⟨0, 0, 0, 0⟩
  ∧ AppleChip.get_specs .M2Ultra = ⟨0, 0, 0, 0⟩
  ∧ AppleChip.get_specs .M3 = ⟨0, 0, 0, 0⟩
  ∧ AppleChip.get_specs .M3Pro = ⟨0, 0, 0, 0⟩
  ∧ AppleChip.get_specs .M3Max = ⟨0, 0, 0, 0⟩
  ∧ AppleChip.get_specs .M1 = ⟨20, 20, 70, 70⟩
  ∧ AppleChip.get_specs .M1Pro = ⟨30, 30, 200, 200⟩
  ∧ AppleChip.get_specs .M1Max = ⟨30, 60, 250, 400⟩
  ∧ AppleChip.get_specs .M1Ultra = ⟨60, 120, 500, 800⟩
  ∧ AppleChip.get_specs .M2 = ⟨25, 15, 100, 100⟩
  ∧ AppleChip.get_specs .M2Pro = ⟨30, 35, 0, 0⟩
  ∧ AppleChip.get_specs .M2Max = ⟨30, 40, 0, 0⟩ := by
  refine ⟨rfl, rfl, rfl, rfl, rfl, rfl, rfl, rfl, rfl, rfl, rfl, rfl⟩

/-- C2: at the first point of failure in the CPU path, a missing expected
line (the split iterator is exhausted) fails with the `Parse` kind carrying
the raw buffer, while a present-but-non-numeric line fails with the
integer-parse kind. (The first line can never be missing: splitting always
yields at least one piece.) -/
theorem cpu_info_error_kinds (buffer : String) :
    ((splitOnNl buffer.data).get? 1 = none →
        cpu_info buffer = .error (.Parse buffer))
  ∧ (∀ l1, (splitOnNl buffer.data).get? 1 = some l1 →
        parseU16 l1 = none →
        cpu_info buffer = .error .ParseInt)
  ∧ (∀ l1 n1, (splitOnNl buffer.data).get? 1 = some l1 →
        parseU16 l1 = some n1 →
        (splitOnNl buffer.data).get? 2 = none →
        cpu_info buffer = .error (.Parse buffer))
  ∧ (∀ l1 n1 l2, (splitOnNl buffer.data).get? 1 = some l1 →
        parseU16 l1 = some n1 →
        (splitOnNl buffer.data).get? 2 = some l2 →
        parseU16 l2 = none →
        cpu_info buffer = .error .ParseInt)
  ∧ (∀ l1 n1 l2 n2, (splitOnNl buffer.data).get? 1 = some l1 →
        parseU16 l1 = some n1 →
        (splitOnNl buffer.data).get? 2 = some l2 →
        parseU16 l2 = some n2 →
        (splitOnNl buffer.data).get? 3 = none →
        cpu_info buffer = .error (.Parse buffer))
  ∧ (∀ l1 n1 l2 n2 l3, (splitOnNl buffer.data).get? 1 = some l1 →
        parseU16 l1 = some n1 →
        (splitOnNl buffer.data).get? 2 = some l2 →
        parseU16 l2 = some n2 →
        (splitOnNl buffer.data).get? 3 = some l3 →
        parseU16 l3 = none →
        cpu_info buffer = .error .ParseInt) := by
  cases hsp : splitOnNl buffer.data with
  | nil => exact absurd hsp (splitOnNl_ne_nil _)
  | cons p0 ps =>
    unfold cpu_info cpuParse
    rw [hsp]
    refine ⟨?_, ?_, ?_, ?_, ?_, ?_⟩
    · intro h
      simp_all
    · intro l1 h1 hp1
      simp_all
    · intro l1 n1 h1 hp1 h2
      simp only [List.get?_eq_getElem?] at h2
      simp_all [List.getElem?_eq_none]
    · intro l1 n1 l2 h1 hp1 h2 hp2
      simp_all
    · intro l1 n1 l2 n2 h1 hp1 h2 hp2 h3
      simp only [List.get?_eq_getElem?] at h3
      simp_all [List.getElem?_eq_none]
    · intro l1 n1 l2 n2 l3 h1 hp1 h2 hp2 h3 hp3
      simp_all

/-- C2 (witness): concrete buffers exercising a missing line (`"A"`, no
second piece → `Parse`) and a present-but-non-numeric line
("A\nx" → integer-parse). -/
theorem cpu_info_error_kinds_witness :
    cpu_info "A" = .error (.Parse "A") ∧
    cpu_info "A\nx" = .error .ParseInt :=
  ⟨(cpu_info_error_kinds "A").1 rfl,
   (cpu_info_error_kinds "A\nx").2.1 ['x'] rfl rfl⟩

/-- C6: for every valid 4-line CPU-path buffer "<brand>\n<total>\n<perf>\n<eff>\n"
whose brand contains no newline and whose three count lines parse as
unsigned 16-bit integers, parsing succeeds and returns exactly the tuple
{brand, total, perf, eff}, the brand taken verbatim from line 0 with no
trimming. -/
theorem cpu_info_valid_four_lines (b t p e : String) (nt np ne : Nat)
    (hb : '\n' ∉ b.data)
    (ht : parseU16 t.data = some nt)
    (hp : parseU16 p.data = some np)
    (he : parseU16 e.data = some ne) :
    cpu_info (b ++ "\n" ++ t ++ "\n" ++ p ++ "\n" ++ e ++ "\n") =
      .ok (b, nt, np, ne) := by
  have hnl : ("\n" : String).data = ['\n'] := rfl
  have hbuf : (b ++ "\n" ++ t ++ "\n" ++ p ++ "\n" ++ e ++ "\n").data
      = b.data ++ '\n' ::
          (t.data ++ '\n' :: (p.data ++ '\n' :: (e.data ++ '\n' :: []))) := by
    simp [String.data_append, hnl]
  unfold cpu_info
  rw [hbuf, splitOnNl_append _ _ hb,
      splitOnNl_append _ _ (parseU16_no_newline _ _ ht),
      splitOnNl_append _ _ (parseU16_no_newline _ _ hp),
      splitOnNl_append _ _ (parseU16_no_newline _ _ he)]
  unfold cpuParse
  simp [splitOnNl, ht, hp, he]

/-- C6 (witness): the concrete valid buffer "Apple M2\n8\n4\n4\n" parses to
{"Apple M2", 8, 4, 4}. -/
theorem cpu_info_valid_four_lines_witness :
    cpu_info ("Apple M2" ++ "\n" ++ "8" ++ "\n" ++ "4" ++ "\n" ++ "4" ++ "\n") =
      .ok ("Apple M2", 8, 4, 4) :=
  cpu_info_valid_four_lines "Apple M2" "8" "4" "4" 8 4 4 (by decide) rfl rfl rfl

/-- C7: if the GPU-path buffer's lines consist of unrelated (non-matching)
lines followed by a line that, after stripping leading whitespace, begins
with "Total Number of Cores" and whose final ": "-separated segment parses
as the unsigned integer n, then parsing succeeds and returns n from that
first matching line, regardless of the surrounding unrelated lines. -/
theorem gpu_info_first_matching_line (buffer : String)
    (pre post : List (List Char)) (l seg : List Char) (n : Nat)
    (hlines : rustLines buffer.data = pre ++ l :: post)
    (hpre : ∀ line ∈ pre, gpuLinePred line = false)
    (hl : gpuLinePred l = true)
    (hseg : (splitColonSpace l).getLast? = some seg)
    (hn : parseU16 seg = some n) :
    gpu_info buffer = .ok n := by
  unfold gpu_info
  rw [hlines, find?_append_first gpuLinePred pre post l hpre hl]
  simp [hseg, hn]

/-- C7 (witness): the test buffer of src/soc.rs:262 — two unrelated lines
followed by "              Total Number of Cores: 10" — parses to 10. -/
theorem gpu_info_first_matching_line_witness :
    gpu_info "Graphics/Displays:\n            Apple M2:\n              Total Number of Cores: 10" =
      .ok 10 :=
  gpu_info_first_matching_line _
    ["Graphics/Displays:".data, "            Apple M2:".data]
    [] "              Total Number of Cores: 10".data "10".data 10
    rfl (by decide) rfl rfl rfl

/-- C8: a GPU-path buffer none of whose lines begins (after stripping
leading whitespace) with "Total Number of Cores" fails with the `Parse`
error kind carrying the raw buffer. -/
theorem gpu_info_no_matching_line (buffer : String)
    (h : ∀ line ∈ rustLines buffer.data, gpuLinePred line = false) :
    gpu_info buffer = .error (.Parse buffer) := by
  have hfind : (rustLines buffer.data).find? gpuLinePred = none :=
    List.find?_eq_none.mpr (by simpa using h)
  unfold gpu_info
  rw [hfind]

/-- C8 (witness): the concrete label-free buffer "hello\nworld" fails with
`Parse` carrying the buffer. -/
theorem gpu_info_no_matching_line_witness :
    gpu_info "hello\nworld" = .error (.Parse "hello\nworld") :=
  gpu_info_no_matching_line "hello\nworld" (by decide)

/-- C10: whenever the GPU path finds a matching line, the inner `Parse`
branch is unreachable — splitting any line on ": " always yields at least
one segment, so taking the last segment never fails — and the outcome is
either success or the integer-parse error kind. -/
theorem gpu_info_inner_parse_unreachable (buffer : String) (l : List Char)
    (hfind : (rustLines buffer.data).find? gpuLinePred = some l) :
    splitColonSpace l ≠ [] ∧
    ((∃ n, gpu_info buffer = .ok n) ∨ gpu_info buffer = .error .ParseInt) := by
  refine ⟨splitColonSpace_ne_nil l, ?_⟩
  unfold gpu_info
  rw [hfind]
  cases hgl : (splitColonSpace l).getLast? with
  | none =>
    exact absurd (List.getLast?_eq_none_iff.mp hgl) (splitColonSpace_ne_nil l)
  | some seg =>
    cases hps : parseU16 seg with
    | none => exact Or.inr (by simp [hgl, hps])
    | some n => exact Or.inl ⟨n, by simp [hgl, hps]⟩

/-- C10 (witness): the concrete buffer "Total Number of Cores: 10" has a
matching line whose ": "-split is non-empty and whose outcome is a
success. -/
theorem gpu_info_inner_parse_unreachable_witness :
    splitColonSpace "Total Number of Cores: 10".data ≠ [] ∧
    ((∃ n, gpu_info "Total Number of Cores: 10" = .ok n) ∨
      gpu_info "Total Number of Cores: 10" = .error .ParseInt) :=
  gpu_info_inner_parse_unreachable "Total Number of Cores: 10"
    "Total Number of Cores: 10".data rfl

/-- C9: every successfully constructed `SocInfo` record has all four
optional fields populated (`some`), never `none`; and when the brand
classifies as `Unknown` or as a recognized-but-unmodeled chip, the four
fields are `some 0` rather than `none`. -/
theorem socinfo_new_optional_fields (cb gb : String) (info : SocInfo)
    (h : SocInfo.new cb gb = .ok info) :
    info.cpu_max_power.isSome ∧ info.gpu_max_power.isSome ∧
    info.cpu_max_bw.isSome ∧ info.gpu_max_bw.isSome ∧
    (AppleChip.from_brand_string info.cpu_brand_name ∈
        [AppleChip.Unknown, .M2Ultra, .M3, .M3Pro, .M3Max] →
      info.cpu_max_power = some 0 ∧ info.gpu_max_power = some 0 ∧
      info.cpu_max_bw = some 0 ∧ info.gpu_max_bw = some 0) := by
  unfold SocInfo.new at h
  split at h
  · exact absurd h (by simp)
  next brand n1 n2 n3 heq =>
    split at h
    · exact absurd h (by simp)
    next g hg =>
      simp only [Except.ok.injEq] at h
      subst h
      refine ⟨rfl, rfl, rfl, rfl, ?_⟩
      intro hm
      simp only [List.mem_cons, List.not_mem_nil, or_false] at hm
      rcases hm with h' | h' | h' | h' | h' <;>
        simp_all [AppleChip.get_specs]

/-- C9 (witness): a concrete never-seen brand ("Zen") with valid numeric
lines and a valid GPU buffer: construction succeeds and all four optional
fields are populated, with `some 0` for the unknown chip. -/
theorem socinfo_new_optional_fields_witness :
    zenInfo.cpu_max_power.isSome ∧ zenInfo.gpu_max_power.isSome ∧
    zenInfo.cpu_max_bw.isSome ∧ zenInfo.gpu_max_bw.isSome ∧
    (AppleChip.from_brand_string zenInfo.cpu_brand_name ∈
        [AppleChip.Unknown, .M2Ultra, .M3, .M3Pro, .M3Max] →
      zenInfo.cpu_max_power = some 0 ∧ zenInfo.gpu_max_power = some 0 ∧
      zenInfo.cpu_max_bw = some 0 ∧ zenInfo.gpu_max_bw = some 0) :=
  socinfo_new_optional_fields "Zen\n8\n4\n4\n" "Total Number of Cores: 10"
    zenInfo rfl
